import Mathlib

/-!
Shallow embedding of the media-engine job pipeline
(src/app/models.py, src/app/transcode/profiles.py, src/app/transcode/probe.py,
src/app/transcode/engine.py, src/app/jobs.py, src/app/utils/callbacks.py).

Python floats (durations, timestamps, progress) are modelled as `ℚ`;
Python `Optional` as `Option`; `datetime` values as rational timestamps.
Functions keep the source names (leading underscores are dropped where the
Python name has one, since such names are private methods).
-/

namespace MediaEngine

/-- models.py: `JobStatus` enumeration. -/
inductive JobStatus
  | queued
  | processing
  | completed
  | failed
  | cancelled
deriving DecidableEq, Repr

/-- models.py: `QualityTarget` enumeration. -/
inductive QualityTarget
  | auto
  | uhd_2160p
  | fhd_1080p
  | hd_720p
  | sd_480p
deriving DecidableEq, Repr

/-- models.py: `CodecPreference` enumeration. -/
inductive CodecPreference
  | auto
  | h264
  | h265
deriving DecidableEq, Repr

/-- profiles.py: `QualityProfile` dataclass. `video_bitrate` in bits per second. -/
structure QualityProfile where
  name : QualityTarget
  width : Nat
  height : Nat
  video_bitrate : Nat
  codec : CodecPreference
deriving DecidableEq, Repr

/-- profiles.py: the `uhd_2160p` entry of `PROFILES`. -/
def uhdProfile : QualityProfile :=
  { name := QualityTarget.uhd_2160p, width := 3840, height := 2160,
    video_bitrate := 8000000, codec := CodecPreference.h265 }

/-- profiles.py: the `fhd_1080p` entry of `PROFILES`. -/
def fhdProfile : QualityProfile :=
  { name := QualityTarget.fhd_1080p, width := 1920, height := 1080,
    video_bitrate := 12000000, codec := CodecPreference.h264 }

/-- profiles.py: the `hd_720p` entry of `PROFILES`. -/
def hdProfile : QualityProfile :=
  { name := QualityTarget.hd_720p, width := 1280, height := 720,
    video_bitrate := 6000000, codec := CodecPreference.h264 }

/-- profiles.py: the `sd_480p` entry of `PROFILES`. -/
def sdProfile : QualityProfile :=
  { name := QualityTarget.sd_480p, width := 854, height := 480,
    video_bitrate := 3000000, codec := CodecPreference.h264 }

/-- profiles.py: `sorted(PROFILES.values(), key=lambda p: p.height, reverse=True)`.
The four profile heights are distinct, so the descending order is unique. -/
def sorted_profiles : List QualityProfile :=
  [uhdProfile, fhdProfile, hdProfile, sdProfile]

/-- profiles.py: `choose_profile`.  An explicit request looks the profile up in
`PROFILES`; `auto` scans the height-descending list and returns the first
profile whose height or width is not above the source, falling back to
`PROFILES[QualityTarget.sd_480p]`. -/
def choose_profile (source_width source_height : Nat) (request : QualityTarget) : QualityProfile :=
  match request with
  | QualityTarget.uhd_2160p => uhdProfile
  | QualityTarget.fhd_1080p => fhdProfile
  | QualityTarget.hd_720p => hdProfile
  | QualityTarget.sd_480p => sdProfile
  | QualityTarget.auto =>
      (sorted_profiles.find? fun p =>
        decide (p.height ≤ source_height) || decide (p.width ≤ source_width)).getD sdProfile

/-- The loop condition of `choose_profile` in auto mode, as a proposition:
`source_height >= profile.height or source_width >= profile.width`. -/
def profile_fits (source_width source_height : Nat) (p : QualityProfile) : Prop :=
  p.height ≤ source_height ∨ p.width ≤ source_width

instance (w h : Nat) (p : QualityProfile) : Decidable (profile_fits w h p) := by
  unfold profile_fits
  infer_instance

/-- probe.py: `MediaStreamInfo` dataclass. -/
structure MediaStreamInfo where
  codec_type : String
  codec_name : Option String
  width : Option Nat := none
  height : Option Nat := none
  bit_rate : Option Nat := none
deriving DecidableEq, Repr

/-- probe.py: `MediaInfo` dataclass. -/
structure MediaInfo where
  container : Option String
  bit_rate : Option Nat
  duration : Option ℚ
  video : Option MediaStreamInfo
  audio : Option MediaStreamInfo
deriving DecidableEq, Repr

/-- `List.isPrefixOf` on characters, written structurally so that concrete
instances reduce in the kernel. -/
def charsPrefixOf : List Char → List Char → Bool
  | [], _ => true
  | _ :: _, [] => false
  | a :: as, b :: bs => a == b && charsPrefixOf as bs

/-- Substring occurrence on character lists (`pat` occurs somewhere in the
second list), written structurally. -/
def charsContains (pat : List Char) : List Char → Bool
  | [] => List.isEmpty pat
  | c :: rest => charsPrefixOf pat (c :: rest) || charsContains pat rest

/-- Python `str.lower()` for the ASCII names handled by the engine. -/
def py_lower (s : String) : String := String.mk (s.data.map Char.toLower)

/-- Python `needle in hay` on strings. -/
def py_contains (hay needle : String) : Bool := charsContains needle.data hay.data

/-- engine.py: `TranscodeEngine._map_codec_name`.  A falsy codec (absent or
empty string) maps to `None`; otherwise the lowercased name is matched
against the h264 and h265 alias sets. -/
def map_codec_name (codec : Option String) : Option CodecPreference :=
  match codec with
  | none => none
  | some c =>
      if c = "" then none
      else
        let value := py_lower c
        if value = "h264" ∨ value = "avc1" ∨ value = "avc" then some CodecPreference.h264
        else if value = "h265" ∨ value = "hevc" ∨ value = "hvc1" then some CodecPreference.h265
        else none

/-- engine.py: `TranscodeEngine._resolve_codec`.  An explicit request codec
wins; otherwise a supported source codec is kept; otherwise a non-auto
profile default; otherwise h264. -/
def resolve_codec (info : MediaInfo) (profile : QualityProfile)
    (request_codec : CodecPreference) : CodecPreference :=
  if request_codec ≠ CodecPreference.auto then request_codec
  else
    let source_codec := map_codec_name (match info.video with
      | some v => v.codec_name
      | none => none)
    if source_codec = some CodecPreference.h264 ∨ source_codec = some CodecPreference.h265 then
      source_codec.getD CodecPreference.h264
    else if profile.codec ≠ CodecPreference.auto then profile.codec
    else CodecPreference.h264

/-- engine.py: the container test inside `_should_remux`:
`bool(info.container and "mp4" in info.container.lower())`. -/
def is_mp4_container (container : Option String) : Bool :=
  match container with
  | none => false
  | some c => if c = "" then false else py_contains (py_lower c) "mp4"

/-- engine.py: `TranscodeEngine._should_remux`.  False when the video stream
or its dimensions are falsy; otherwise requires mapped source codec equal to
the target codec (after the dead `auto` defaulting branch), an mp4-family
container, and source dimensions not above the profile dimensions. -/
def should_remux (info : MediaInfo) (profile : QualityProfile)
    (target_codec : CodecPreference) : Bool :=
  match info.video with
  | none => false
  | some video =>
      match video.width, video.height with
      | some w, some h =>
          if w = 0 ∨ h = 0 then false
          else
            let source_codec := map_codec_name video.codec_name
            let target :=
              if target_codec = CodecPreference.auto then
                source_codec.getD CodecPreference.h264
              else target_codec
            if source_codec ≠ some target then false
            else if ¬ is_mp4_container info.container then false
            else if profile.width < w ∨ profile.height < h then false
            else true
      | _, _ => false

/-- engine.py: `TranscodeEngine._hevc_rate_control`.  The source returns the
strings "8M"/"12M"/... ; the triple is modelled in Mbit/s. -/
def hevc_rate_control (width : Nat) : Nat × Nat × Nat :=
  if width ≥ 3800 then (8, 12, 18)
  else if width ≥ 2500 then (5, 8, 12)
  else (3, 5, 8)

/-- Rate-control arguments placed on the ffmpeg command line by
`_transcode_rkmpp`: a tiered (b:v, maxrate, bufsize) triple in Mbit/s for the
`hevc_rkmpp` encoder, a flat bitrate in bit/s otherwise. -/
inductive RateControlArgs
  | tiered (bv maxrate bufsize : Nat)
  | flat (bitrate : Nat)
deriving DecidableEq, Repr

/-- engine.py: the rate-control branch of `_transcode_rkmpp` (the
`if encoder_name == "hevc_rkmpp"` block). -/
def rkmpp_rate_args (encoder_name : String) (profile : QualityProfile) : RateControlArgs :=
  if encoder_name = "hevc_rkmpp" then
    let t := hevc_rate_control profile.width
    RateControlArgs.tiered t.1 t.2.1 t.2.2
  else
    RateControlArgs.flat profile.video_bitrate

/-- jobs.py: `JobRecord` dataclass.  Paths are strings, datetimes and float
durations are rationals. -/
structure JobRecord where
  job_id : String
  status : JobStatus
  created_at : ℚ
  updated_at : ℚ
  source_path : String
  source_filename : String
  output_path : Option String
  quality : QualityTarget
  codec : CodecPreference
  callback_url : Option String
  error : Option String := none
  download_started_at : Option ℚ := none
  download_finished_at : Option ℚ := none
  transcode_started_at : Option ℚ := none
  transcode_finished_at : Option ℚ := none
  media_duration_seconds : Option ℚ := none
  transcode_media_seconds : Option ℚ := none
deriving DecidableEq, Repr

/-- jobs.py: the progress / ETA block of `JobRecord.to_detail` (lines 61-73),
parametrised by `now`.  Python truthiness of `media_duration_seconds` (a
float) is `some d` with `d ≠ 0`; truthiness of the datetime
`transcode_started_at` is `some _`; `progress` is truthy when non-null and
non-zero. Returns `(transcode_progress, transcode_eta_seconds)`. -/
def JobRecord.progress_and_eta (r : JobRecord) (now : ℚ) : Option ℚ × Option ℚ :=
  match r.media_duration_seconds, r.transcode_media_seconds, r.transcode_started_at with
  | some media_duration, some t, some started =>
      if media_duration = 0 then (none, none)
      else
        let processed := min t media_duration
        let progress : Option ℚ :=
          if media_duration ≠ 0 then some (processed / media_duration) else none
        let eta : Option ℚ :=
          match progress with
          | some pr =>
              if pr ≠ 0 ∧ 0 < pr ∧ r.transcode_finished_at = none then
                let elapsed := now - started
                if 0 < elapsed then
                  let speed := processed / elapsed
                  if 0 < speed then some (max (media_duration - processed) 0 / speed)
                  else none
                else none
              else none
          | none => none
        (progress, eta)
  | _, _, _ => (none, none)

/-- engine.py: `TranscodeEngine._update_progress`.  Stores the reported
seconds, backfills an unknown duration when the captured duration is
positive, and refreshes `updated_at`. -/
def update_progress (record : JobRecord) (processed_seconds media_duration now : ℚ) : JobRecord :=
  let r1 := { record with transcode_media_seconds := some processed_seconds }
  let r2 :=
    if r1.media_duration_seconds = none ∧ 0 < media_duration then
      { r1 with media_duration_seconds := some media_duration }
    else r1
  { r2 with updated_at := now }

/-- engine.py: the tail of `_process_sync` (lines 96-97): on success, when the
duration is known, `transcode_media_seconds` is set to the full duration. -/
def finalize_success_progress (r : JobRecord) : JobRecord :=
  match r.media_duration_seconds with
  | some d => { r with transcode_media_seconds := some d }
  | none => r

/-- models.py: `JobRequest`. -/
structure JobRequest where
  quality : QualityTarget
  codec : CodecPreference
  callback_url : Option String
deriving DecidableEq, Repr

/-- models.py: `JobResponse`. -/
structure JobResponse where
  job_id : String
  status : JobStatus
  message : Option String
deriving DecidableEq, Repr

/-- jobs.py: `WorkItem`.  The Python dataclass holds a reference to the
`JobRecord` object that is also in `JobManager.records`; the model keys the
shared record by `job_id` so that mutations through either path alias. -/
structure WorkItem where
  job_id : String
  request : JobRequest
deriving DecidableEq, Repr

/-- models.py: `CallbackPayload` together with the URL it is posted to; one
such event is one invocation of `CallbackDispatcher.dispatch`. -/
structure CallbackEvent where
  url : String
  job_id : String
  status : JobStatus
  output_path : Option String
  message : Option String
deriving DecidableEq, Repr

/-- jobs.py: `JobManager` mutable state: the `records` dict (association
list) and the bounded `asyncio.Queue` of work items. -/
structure ManagerState where
  records : List (String × JobRecord)
  queue : List WorkItem
deriving DecidableEq, Repr

/-- Dictionary lookup in `JobManager.records` (`self.records.get(job_id)`). -/
def lookupRecord (recs : List (String × JobRecord)) (id : String) : Option JobRecord :=
  match recs with
  | [] => none
  | (k, r) :: rest => if k = id then some r else lookupRecord rest id

/-- Dictionary store `self.records[job_id] = record` (insert or overwrite). -/
def setRecord (recs : List (String × JobRecord)) (id : String) (r : JobRecord) :
    List (String × JobRecord) :=
  match recs with
  | [] => [(id, r)]
  | (k, r0) :: rest => if k = id then (k, r) :: rest else (k, r0) :: setRecord rest id r

/-- The status of the record stored under `id`, as seen by status queries. -/
def statusOf (st : ManagerState) (id : String) : Option JobStatus :=
  (lookupRecord st.records id).map JobRecord.status

/-- Result of `JobManager.submit_job`.  `blocked` models the suspension of
`await self.queue.put(...)` on a saturated bounded `asyncio.Queue`: the
coroutine waits for a free slot, no `QueueFull` is raised and no response is
returned to the submitter while the queue stays full. -/
inductive SubmitOutcome
  | accepted (resp : JobResponse)
  | blocked
deriving DecidableEq, Repr

/-- jobs.py: `JobManager.submit_job`.  The upload is persisted, the record is
created with status `queued` and registered in `records`, and only then is
the work item enqueued; with the queue already holding `max_queue_size`
items the final `await self.queue.put` suspends (`blocked`). -/
def submit_job (st : ManagerState) (max_queue_size : Nat) (job_id : String)
    (req : JobRequest) (source_filename : String) (now : ℚ) : SubmitOutcome × ManagerState :=
  let record : JobRecord :=
    { job_id := job_id, status := JobStatus.queued, created_at := now, updated_at := now,
      source_path := job_id ++ "_" ++ source_filename, source_filename := source_filename,
      output_path := none, quality := req.quality, codec := req.codec,
      callback_url := req.callback_url,
      download_started_at := some now, download_finished_at := some now }
  let st1 : ManagerState := { st with records := setRecord st.records job_id record }
  if st1.queue.length < max_queue_size then
    (SubmitOutcome.accepted
        { job_id := job_id, status := JobStatus.queued, message := some "Job accepted" },
      { st1 with queue := st1.queue ++ [{ job_id := job_id, request := req }] })
  else
    (SubmitOutcome.blocked, st1)

/-- jobs.py: `JobManager.cancel_job`.  Unknown or terminal jobs yield
`false` with the state untouched; otherwise the record becomes `cancelled`. -/
def cancel_job (st : ManagerState) (id : String) (now : ℚ) : Bool × ManagerState :=
  match lookupRecord st.records id with
  | none => (false, st)
  | some r =>
      if r.status = JobStatus.completed ∨ r.status = JobStatus.failed ∨
          r.status = JobStatus.cancelled then
        (false, st)
      else
        (true, { st with
          records := setRecord st.records id
            { r with status := JobStatus.cancelled, updated_at := now } })

/-- The outcome of one `TranscodeEngine.process` run as observed by the
worker: the produced output path, or the exception message. -/
inductive TranscodeOutcome
  | success (output_path : String)
  | failure (message : String)
deriving DecidableEq, Repr

/-- jobs.py: `JobManager._fire_callback`: nothing without a callback URL,
otherwise exactly one `dispatch` invocation carrying the payload. -/
def fire_callback (r : JobRecord) (message : Option String) : List CallbackEvent :=
  match r.callback_url with
  | none => []
  | some url =>
      [{ url := url, job_id := r.job_id, status := r.status,
         output_path := r.output_path, message := message }]

/-- jobs.py: one iteration of `JobManager._worker` (lines 207-243): dequeue,
skip a record already cancelled, otherwise mark it `processing` and run the
engine; on success mark `completed`, on exception mark `failed`; in both
terminal cases fire the callback once.  The whole iteration, including the
progress mutations the engine performs inside `process`, happens on the
worker; `outcome` abstracts the engine result.  An empty queue means the
worker is parked on `queue.get()` (no state change). -/
def worker_step (st : ManagerState) (outcome : TranscodeOutcome) (now : ℚ) :
    ManagerState × List CallbackEvent :=
  match st.queue with
  | [] => (st, [])
  | item :: rest =>
      let st1 : ManagerState := { st with queue := rest }
      match lookupRecord st1.records item.job_id with
      | none => (st1, [])
      | some r =>
          if r.status = JobStatus.cancelled then
            (st1, [])
          else
            let r1 := { r with status := JobStatus.processing, updated_at := now,
                               transcode_started_at := some now }
            match outcome with
            | TranscodeOutcome.success out =>
                let r2 := { r1 with transcode_finished_at := some now,
                                    output_path := some out,
                                    status := JobStatus.completed, updated_at := now }
                ({ st1 with records := setRecord st1.records item.job_id r2 },
                  fire_callback r2 (some "completed"))
            | TranscodeOutcome.failure msg =>
                let r2 := { r1 with status := JobStatus.failed, updated_at := now,
                                    error := some msg }
                let r3 :=
                  if r2.transcode_finished_at = none ∧ r2.transcode_started_at ≠ none then
                    { r2 with transcode_finished_at := some now }
                  else r2
                ({ st1 with records := setRecord st1.records item.job_id r3 },
                  fire_callback r3 (some msg))

/-- The manager operations that can interleave on the running system:
submission, cancellation, one worker iteration, and one progress update
reaching `_update_progress` for a record. -/
inductive ManagerEvent
  | submit (max_queue_size : Nat) (job_id : String) (req : JobRequest)
      (source_filename : String) (now : ℚ)
  | cancel (job_id : String) (now : ℚ)
  | worker (outcome : TranscodeOutcome) (now : ℚ)
  | progress (job_id : String) (processed media_duration now : ℚ)

/-- One step of the manager state machine, returning the callback dispatch
invocations the step performs. -/
def manager_step (st : ManagerState) (e : ManagerEvent) : ManagerState × List CallbackEvent :=
  match e with
  | ManagerEvent.submit m id req fn now => ((submit_job st m id req fn now).2, [])
  | ManagerEvent.cancel id now => ((cancel_job st id now).2, [])
  | ManagerEvent.worker outcome now => worker_step st outcome now
  | ManagerEvent.progress id s d now =>
      match lookupRecord st.records id with
      | none => (st, [])
      | some r =>
          ({ st with records := setRecord st.records id (update_progress r s d now) }, [])

/-- Run a sequence of manager events, collecting all callback dispatches. -/
def run_events (st : ManagerState) (es : List ManagerEvent) :
    ManagerState × List CallbackEvent :=
  match es with
  | [] => (st, [])
  | e :: rest =>
      let p := manager_step st e
      let q := run_events p.1 rest
      (q.1, p.2 ++ q.2)

/-- callbacks.py: the backoff `min(2 ** attempt, 30)` (seconds). -/
def backoff_seconds (attempt : Nat) : Nat := min (2 ^ attempt) 30

/-- callbacks.py: the retry loop of `CallbackDispatcher.dispatch`, from
attempt number `attempt` with `fuel` attempts left.  `outcomes k = true`
means the k-th HTTP POST succeeds with a 2xx status; any failure is caught
by the bare `except` and followed by an `asyncio.sleep` of
`backoff_seconds k` — also after the final attempt.  Returns (number of
attempts performed, the list of sleeps performed in order, delivered?). -/
def dispatch_from (outcomes : Nat → Bool) (attempt fuel : Nat) : Nat × List Nat × Bool :=
  match fuel with
  | 0 => (0, [], false)
  | fuel' + 1 =>
      if outcomes attempt then (1, [], true)
      else
        let rest := dispatch_from outcomes (attempt + 1) fuel'
        (rest.1 + 1, backoff_seconds attempt :: rest.2.1, rest.2.2)

/-- callbacks.py: `CallbackDispatcher.dispatch` for
`range(1, max_attempts + 1)`.  Total: exhausted attempts end in the final
log line, never in an exception escaping the call. -/
def dispatch (outcomes : Nat → Bool) (max_attempts : Nat) : Nat × List Nat × Bool :=
  dispatch_from outcomes 1 max_attempts

/-! Concrete states used by counterexamples and witnesses. -/

/-- An empty default request (`quality=auto, codec=auto`, no callback URL). -/
def autoRequest : JobRequest :=
  { quality := QualityTarget.auto, codec := CodecPreference.auto, callback_url := none }

/-- A manager state whose bounded queue is saturated for `max_queue_size = 1`:
one work item is already pending. -/
def fullQueueState : ManagerState :=
  { records := [], queue := [{ job_id := "a", request := autoRequest }] }

/-- A mid-transcode record with a known 10-second duration, used to exercise
the progress-update path. -/
def progressRecordBase : JobRecord :=
  { job_id := "j", status := JobStatus.processing, created_at := 0, updated_at := 0,
    source_path := "s", source_filename := "f", output_path := none,
    quality := QualityTarget.auto, codec := CodecPreference.auto, callback_url := none,
    transcode_started_at := some 0, media_duration_seconds := some 10,
    transcode_media_seconds := some 0 }

/-- A record whose progress stream reported a negative elapsed media time
(ffmpeg emits a negative `out_time_ms` at stream start; `_run_ffmpeg` parses
any integer), with a known 10-second duration. -/
def negProgressRecord : JobRecord :=
  { progressRecordBase with transcode_media_seconds := some (-5) }

/-- A record halfway through a 10-second source. -/
def halfProgressRecord : JobRecord :=
  { progressRecordBase with transcode_media_seconds := some 5 }

/-- A record whose media duration is unknown. -/
def noDurationRecord : JobRecord :=
  { progressRecordBase with media_duration_seconds := none }

/-- A queued job record that carries a callback URL. -/
def callbackJobRecord : JobRecord :=
  { job_id := "j", status := JobStatus.queued, created_at := 0, updated_at := 0,
    source_path := "s", source_filename := "f", output_path := none,
    quality := QualityTarget.auto, codec := CodecPreference.auto,
    callback_url := some "http://cb.example/hook" }

/-- The work item enqueued for `callbackJobRecord`. -/
def callbackWorkItem : WorkItem :=
  { job_id := "j",
    request := { quality := QualityTarget.auto, codec := CodecPreference.auto,
                 callback_url := some "http://cb.example/hook" } }

/-- A queued job with a callback URL, already enqueued as a work item. -/
def callbackJobState : ManagerState :=
  { records := [("j", callbackJobRecord)], queue := [callbackWorkItem] }

/-- A plain queued job without callback URL, already enqueued. -/
def queuedJobState : ManagerState :=
  { records := [("q",
      { job_id := "q", status := JobStatus.queued, created_at := 0, updated_at := 0,
        source_path := "s", source_filename := "f", output_path := none,
        quality := QualityTarget.auto, codec := CodecPreference.auto, callback_url := none })],
    queue := [{ job_id := "q", request := autoRequest }] }

/-- A probed 720p h264 source in an mp4-family container. -/
def remuxInfoW : MediaInfo :=
  { container := some "mov,mp4,m4a,3gp,3g2,mj2", bit_rate := none, duration := some 60,
    video := some { codec_type := "video", codec_name := some "h264",
                    width := some 1280, height := some 720 },
    audio := none }

/-! Helper lemmas about the records dictionary and the step machine. -/

theorem lookup_setRecord_self (recs : List (String × JobRecord)) (id : String) (r : JobRecord) :
    lookupRecord (setRecord recs id r) id = some r := by
  induction recs with
  | nil => simp [setRecord, lookupRecord]
  | cons p rest ih =>
      obtain ⟨k, r0⟩ := p
      by_cases hk : k = id <;> simp [setRecord, lookupRecord, hk, ih]

theorem lookup_setRecord_ne (recs : List (String × JobRecord)) (id id2 : String)
    (r : JobRecord) (hne : id ≠ id2) :
    lookupRecord (setRecord recs id r) id2 = lookupRecord recs id2 := by
  induction recs with
  | nil => simp [setRecord, lookupRecord, hne]
  | cons p rest ih =>
      obtain ⟨k, r0⟩ := p
      by_cases hk : k = id
      · subst hk
        simp [setRecord, lookupRecord, hne]
      · simp [setRecord, lookupRecord, hk, ih]

theorem update_progress_status (r : JobRecord) (s d now : ℚ) :
    (update_progress r s d now).status = r.status := by
  unfold update_progress
  dsimp only
  split <;> rfl

theorem dispatch_from_spec (outcomes : Nat → Bool) (fuel : Nat) : ∀ a : Nat,
    (dispatch_from outcomes a fuel).1 ≤ fuel ∧
    ((dispatch_from outcomes a fuel).2.2 = true → 1 ≤ (dispatch_from outcomes a fuel).1) ∧
    (dispatch_from outcomes a fuel).2.1.length =
      (if (dispatch_from outcomes a fuel).2.2 then (dispatch_from outcomes a fuel).1 - 1
       else (dispatch_from outcomes a fuel).1) ∧
    ∀ i, (hi : i < (dispatch_from outcomes a fuel).2.1.length) →
      (dispatch_from outcomes a fuel).2.1.get ⟨i, hi⟩ = min (2 ^ (a + i)) 30 := by
  induction fuel with
  | zero =>
      intro a
      simp [dispatch_from]
  | succ n ih =>
      intro a
      by_cases h : outcomes a
      · simp [dispatch_from, h]
      · have hstep : dispatch_from outcomes a (n + 1) =
            ((dispatch_from outcomes (a + 1) n).1 + 1,
              backoff_seconds a :: (dispatch_from outcomes (a + 1) n).2.1,
              (dispatch_from outcomes (a + 1) n).2.2) := by
          simp [dispatch_from, h]
        have hrec := ih (a + 1)
        have hle := hrec.1
        have hone := hrec.2.1
        have hlen := hrec.2.2.1
        rw [hstep]
        refine ⟨by omega, by intro hd; omega, ?_, ?_⟩
        · rcases hb : (dispatch_from outcomes (a + 1) n).2.2 with _ | _
          · simp [hb] at hlen ⊢
            omega
          · have h1 := hone hb
            simp [hb] at hlen ⊢
            omega
        · intro i hi
          cases i with
          | zero =>
              simp [backoff_seconds]
          | succ j =>
              have hj : j < (dispatch_from outcomes (a + 1) n).2.1.length := by
                simpa using Nat.lt_of_succ_lt_succ hi
              have hget := hrec.2.2.2 j hj
              have hidx : a + 1 + j = a + (j + 1) := by omega
              simpa [hidx] using hget

/-- C10: `_hevc_rate_control` is total over output widths with exactly three
tiers — width ≥ 3800 yields (8M, 12M, 18M); 2500 ≤ width < 3800 yields
(5M, 8M, 12M); width < 2500 yields (3M, 5M, 8M) (components in Mbit/s) — so
each component is monotonically non-decreasing in width, and the
`hevc_rkmpp` branch of `_transcode_rkmpp` always places this tiered triple
on the command line instead of the profile's flat bitrate. -/
theorem hevc_rate_control_tiered_monotone (w w1 w2 : Nat) (p : QualityProfile) :
    (3800 ≤ w → hevc_rate_control w = (8, 12, 18)) ∧
    (2500 ≤ w → w < 3800 → hevc_rate_control w = (5, 8, 12)) ∧
    (w < 2500 → hevc_rate_control w = (3, 5, 8)) ∧
    (w1 ≤ w2 →
      (hevc_rate_control w1).1 ≤ (hevc_rate_control w2).1 ∧
      (hevc_rate_control w1).2.1 ≤ (hevc_rate_control w2).2.1 ∧
      (hevc_rate_control w1).2.2 ≤ (hevc_rate_control w2).2.2) ∧
    rkmpp_rate_args "hevc_rkmpp" p =
      RateControlArgs.tiered (hevc_rate_control p.width).1 (hevc_rate_control p.width).2.1
        (hevc_rate_control p.width).2.2 := by
  refine ⟨?_, ?_, ?_, ?_, ?_⟩
  · intro h1
    simp [hevc_rate_control, h1]
  · intro h1 h2
    unfold hevc_rate_control
    rw [if_neg (by omega), if_pos (by omega)]
  · intro h1
    unfold hevc_rate_control
    rw [if_neg (by omega), if_neg (by omega)]
  · intro hle
    unfold hevc_rate_control
    split_ifs <;> simp_all <;> omega
  · rfl

/-- Witness for C10 at the three tier representatives 3840, 2560, 1920. -/
theorem hevc_rate_control_tiered_monotone_witness :
    hevc_rate_control 3840 = (8, 12, 18) ∧ hevc_rate_control 2560 = (5, 8, 12) ∧
    hevc_rate_control 1920 = (3, 5, 8) :=
  ⟨(hevc_rate_control_tiered_monotone 3840 0 0 sdProfile).1 (by omega),
    (hevc_rate_control_tiered_monotone 2560 0 0 sdProfile).2.1 (by omega) (by omega),
    (hevc_rate_control_tiered_monotone 1920 0 0 sdProfile).2.2.1 (by omega)⟩

/-- C9 counterexample: the claim says a wait occurs only before a next
attempt.  With `max_attempts = 3` and every POST failing, `dispatch`
performs 3 attempts and 3 sleeps (2s, 4s, 8s) — `asyncio.sleep` in the
`except` block also runs after the final attempt, when no further attempt
follows, so the number of sleeps is not bounded by attempts - 1. -/
theorem dispatch_sleeps_after_final_attempt :
    dispatch (fun _ => false) 3 = (3, ([2, 4, 8], false)) ∧
    ¬ ((dispatch (fun _ => false) 3).2.1.length ≤ (dispatch (fun _ => false) 3).1 - 1) := by
  decide

/-- C9 (amended): `dispatch` performs at most `max_attempts` POST attempts
and, being a total function whose loop body catches every exception, never
raises out of the call; the k-th recorded sleep is `min(2^k, 30)` seconds.
After every failed attempt — including the final one — it sleeps, so on
delivery the sleep count is attempts - 1, and on exhaustion it equals the
number of attempts rather than attempts - 1. -/
theorem dispatch_bounded_attempts_backoff (outcomes : Nat → Bool) (max_attempts : Nat) :
    (dispatch outcomes max_attempts).1 ≤ max_attempts ∧
    (dispatch outcomes max_attempts).2.1.length =
      (if (dispatch outcomes max_attempts).2.2 then (dispatch outcomes max_attempts).1 - 1
       else (dispatch outcomes max_attempts).1) ∧
    ∀ i, (hi : i < (dispatch outcomes max_attempts).2.1.length) →
      (dispatch outcomes max_attempts).2.1.get ⟨i, hi⟩ = min (2 ^ (i + 1)) 30 := by
  have h := dispatch_from_spec outcomes max_attempts 1
  refine ⟨h.1, h.2.2.1, ?_⟩
  intro i hi
  have := h.2.2.2 i hi
  simpa [Nat.add_comm 1 i] using this

/-- Witness for C9: with the second attempt succeeding, one attempt fails,
one 2-second sleep separates the attempts, and delivery succeeds within the
bound. -/
theorem dispatch_bounded_attempts_backoff_witness :
    (dispatch (fun a => a == 2) 3).1 ≤ 3 ∧
    (dispatch (fun a => a == 2) 3).2.1.get ⟨0, by decide⟩ = min (2 ^ 1) 30 := by
  have h := dispatch_bounded_attempts_backoff (fun a => a == 2) 3
  exact ⟨h.1, h.2.2 0 (by decide)⟩

/-- C1 (code bug): with the bounded queue saturated (`max_queue_size = 1`
and one item already pending), `submit_job` does not fail synchronously
with a `QueueFull` error — no such error exists anywhere in the code, and
`await self.queue.put(...)` suspends instead (`SubmitOutcome.blocked`) —
while the job record has already been registered in the records map with
status `queued` before the enqueue was attempted. -/
theorem submit_full_queue_registers_record_and_blocks :
    (submit_job fullQueueState 1 "b" autoRequest "clip.mp4" 0).1 = SubmitOutcome.blocked ∧
    statusOf (submit_job fullQueueState 1 "b" autoRequest "clip.mp4" 0).2 "b" =
      some JobStatus.queued := by
  decide

/-- C3 counterexample: `_update_progress` stores the reported elapsed media
seconds unclamped.  From a record with known duration 10s, a progress-stream
update reporting 11s leaves `transcode_media_seconds = 11 > 10 =
media_duration_seconds`, violating the claimed invariant. -/
theorem update_progress_can_exceed_duration :
    (update_progress progressRecordBase 11 10 1).transcode_media_seconds = some 11 ∧
    (update_progress progressRecordBase 11 10 1).media_duration_seconds = some 10 ∧
    ¬ ((11 : ℚ) ≤ 10) := by
  refine ⟨?_, ?_, by norm_num⟩ <;> norm_num [update_progress, progressRecordBase]

/-- C3 (amended): each processed-media-seconds update stores the reported
value unclamped, so the stored counter may exceed the known duration; the
bound holds for the clamped value used by the derived view
(`min(processed, duration) ≤ duration`), and the completion step of
`_process_sync` re-establishes `transcode_media_seconds =
media_duration_seconds` when the duration is known. -/
theorem update_progress_raw_store_read_clamp (r : JobRecord) (s d now : ℚ) :
    (update_progress r s d now).transcode_media_seconds = some s ∧
    (∀ dur, (update_progress r s d now).media_duration_seconds = some dur →
      min s dur ≤ dur) ∧
    (∀ dur, r.media_duration_seconds = some dur →
      (finalize_success_progress r).transcode_media_seconds = some dur ∧
      (finalize_success_progress r).media_duration_seconds = some dur) := by
  refine ⟨?_, ?_, ?_⟩
  · unfold update_progress
    dsimp only
    split <;> rfl
  · intro dur _
    exact min_le_right s dur
  · intro dur hdur
    simp [finalize_success_progress, hdur]

/-- Witness for C3's amended statement at the concrete 10-second record. -/
theorem update_progress_raw_store_read_clamp_witness :
    (update_progress progressRecordBase 11 10 1).transcode_media_seconds = some 11 ∧
    min (11 : ℚ) 10 ≤ 10 ∧
    (finalize_success_progress progressRecordBase).transcode_media_seconds = some 10 := by
  have h := update_progress_raw_store_read_clamp progressRecordBase 11 10 1
  exact ⟨h.1, h.2.1 10 (by norm_num [update_progress, progressRecordBase]), (h.2.2 10 rfl).1⟩

/-- C6 counterexample: the derived progress clamps only from above (`min`),
not from below.  ffmpeg's progress stream can report a negative
`out_time_ms` at stream start and `_run_ffmpeg` parses any integer, so a
record holding `transcode_media_seconds = -5` with duration 10 is reachable;
its derived `transcode_progress` is -1/2, outside [0,1]. -/
theorem transcode_progress_negative_value :
    (negProgressRecord.progress_and_eta 1).1 = some (-(1 / 2)) ∧
    ¬ (0 ≤ (-(1 / 2) : ℚ)) := by
  constructor
  · norm_num [negProgressRecord, progressRecordBase, JobRecord.progress_and_eta, min_def]
  · norm_num

/-- C6 (amended): whenever the derived `transcode_progress` is non-null and
the recorded processed media seconds are nonnegative, the progress lies in
[0,1] — including states where the recorded value exceeds the known
duration, where the `min` clamp applies. -/
theorem transcode_progress_unit_interval (r : JobRecord) (now t pr : ℚ)
    (ht : r.transcode_media_seconds = some t) (htnn : 0 ≤ t)
    (hpr : (r.progress_and_eta now).1 = some pr) :
    0 ≤ pr ∧ pr ≤ 1 := by
  rcases hd : r.media_duration_seconds with _ | d <;>
    rcases hst : r.transcode_started_at with _ | st <;>
    simp [JobRecord.progress_and_eta, hd, ht, hst] at hpr
  by_cases hd0 : d = 0
  · simp [hd0] at hpr
  · simp [hd0] at hpr
    subst hpr
    rcases lt_or_gt_of_ne hd0 with hneg | hpos
    · have hdt : d ≤ t := le_trans hneg.le htnn
      rw [min_eq_right hdt, div_self hd0]
      norm_num
    · refine ⟨div_nonneg (le_min htnn hpos.le) hpos.le, ?_⟩
      rw [div_le_one hpos]
      exact min_le_right t d

/-- Witness for C6's amended statement: halfway through a 10-second source
the derived progress is 1/2 ∈ [0,1]. -/
theorem transcode_progress_unit_interval_witness :
    (halfProgressRecord.progress_and_eta 1).1 = some (1 / 2) ∧
    0 ≤ (1 / 2 : ℚ) ∧ (1 / 2 : ℚ) ≤ 1 := by
  have hpr : (halfProgressRecord.progress_and_eta 1).1 = some (1 / 2) := by
    norm_num [halfProgressRecord, progressRecordBase, JobRecord.progress_and_eta, min_def]
  exact ⟨hpr, transcode_progress_unit_interval halfProgressRecord 1 5 (1 / 2) rfl
    (by norm_num) hpr⟩

/-- C8: the derived `transcode_eta_seconds` is null whenever the media
duration is unknown, the recorded processed media time is zero, or the
transcode already reached a terminal state (`transcode_finished_at` set). -/
theorem eta_null_conditions (r : JobRecord) (now : ℚ)
    (h : r.media_duration_seconds = none ∨ r.transcode_media_seconds = some 0 ∨
      r.transcode_finished_at ≠ none) :
    (r.progress_and_eta now).2 = none := by
  rcases hd : r.media_duration_seconds with _ | d <;>
    rcases ht : r.transcode_media_seconds with _ | t <;>
    rcases hst : r.transcode_started_at with _ | st <;>
    simp [JobRecord.progress_and_eta, hd, ht, hst]
  rw [hd, ht] at h
  simp only [reduceCtorEq, Option.some.injEq, false_or] at h
  by_cases hd0 : d = 0
  · simp [hd0]
  · simp only [hd0, if_false]
    rcases h with h0 | hfin
    · subst h0
      rcases lt_or_gt_of_ne hd0 with hneg | hpos
      · have hmin : min (0 : ℚ) d = d := min_eq_right hneg.le
        by_cases he : 0 < now - st
        · have hspeed : d / (now - st) < 0 := div_neg_of_neg_of_pos hneg he
          simp [hmin, he, not_lt.mpr hspeed.le]
        · simp [hmin, he]
          intro _ _ _ hlt
          exact absurd (sub_pos.mpr hlt) he
      · have hmin : min (0 : ℚ) d = 0 := min_eq_left hpos.le
        simp [hmin]
    · simp [hfin]

/-- Witness for C8: a record with unknown media duration has a null ETA. -/
theorem eta_null_conditions_witness :
    (noDurationRecord.progress_and_eta 5).2 = none :=
  eta_null_conditions noDurationRecord 5 (Or.inl rfl)

/-- C5: in `auto` mode `choose_profile` scans the fixed descending-height
table and returns a member of it; whenever some profile fits (its height
≤ source height or its width ≤ source width) the chosen profile fits and
has the greatest height among the four; when the source is smaller than
every profile in both dimensions the smallest (sd_480p) profile is
returned. -/
theorem choose_profile_auto_highest (w h : Nat) :
    choose_profile w h QualityTarget.auto ∈ sorted_profiles ∧
    (∀ q ∈ sorted_profiles, profile_fits w h q →
      profile_fits w h (choose_profile w h QualityTarget.auto) ∧
      q.height ≤ (choose_profile w h QualityTarget.auto).height) ∧
    ((∀ q ∈ sorted_profiles, ¬ profile_fits w h q) →
      choose_profile w h QualityTarget.auto = sdProfile) := by
  have hchoose : choose_profile w h QualityTarget.auto =
      (sorted_profiles.find? fun p =>
        decide (p.height ≤ h) || decide (p.width ≤ w)).getD sdProfile := rfl
  have hpos : ∀ p : QualityProfile, profile_fits w h p →
      (decide (p.height ≤ h) || decide (p.width ≤ w)) = true := by
    intro p hp
    simpa [profile_fits] using hp
  have hneg : ∀ p : QualityProfile, ¬ profile_fits w h p →
      ¬ ((decide (p.height ≤ h) || decide (p.width ≤ w)) = true) := by
    intro p hp hb
    exact hp (by simpa [profile_fits] using hb)
  by_cases f1 : profile_fits w h uhdProfile
  · have e1 : choose_profile w h QualityTarget.auto = uhdProfile := by
      rw [hchoose]
      unfold sorted_profiles
      rw [List.find?_cons_of_pos (p := fun q : QualityProfile => decide (q.height ≤ h) || decide (q.width ≤ w)) _ (hpos _ f1)]
      rfl
    rw [e1]
    refine ⟨by simp [sorted_profiles], ?_, ?_⟩
    · intro q hq _
      refine ⟨f1, ?_⟩
      simp [sorted_profiles] at hq
      rcases hq with rfl | rfl | rfl | rfl <;> decide
    · intro hnone
      exact absurd f1 (hnone uhdProfile (by simp [sorted_profiles]))
  · by_cases f2 : profile_fits w h fhdProfile
    · have e1 : choose_profile w h QualityTarget.auto = fhdProfile := by
        rw [hchoose]
        unfold sorted_profiles
        rw [List.find?_cons_of_neg (p := fun q : QualityProfile => decide (q.height ≤ h) || decide (q.width ≤ w)) _ (hneg _ f1), List.find?_cons_of_pos (p := fun q : QualityProfile => decide (q.height ≤ h) || decide (q.width ≤ w)) _ (hpos _ f2)]
        rfl
      rw [e1]
      refine ⟨by simp [sorted_profiles], ?_, ?_⟩
      · intro q hq hfq
        refine ⟨f2, ?_⟩
        simp [sorted_profiles] at hq
        rcases hq with rfl | rfl | rfl | rfl
        · exact absurd hfq f1
        · decide
        · decide
        · decide
      · intro hnone
        exact absurd f2 (hnone fhdProfile (by simp [sorted_profiles]))
    · by_cases f3 : profile_fits w h hdProfile
      · have e1 : choose_profile w h QualityTarget.auto = hdProfile := by
          rw [hchoose]
          unfold sorted_profiles
          rw [List.find?_cons_of_neg (p := fun q : QualityProfile => decide (q.height ≤ h) || decide (q.width ≤ w)) _ (hneg _ f1), List.find?_cons_of_neg (p := fun q : QualityProfile => decide (q.height ≤ h) || decide (q.width ≤ w)) _ (hneg _ f2),
            List.find?_cons_of_pos (p := fun q : QualityProfile => decide (q.height ≤ h) || decide (q.width ≤ w)) _ (hpos _ f3)]
          rfl
        rw [e1]
        refine ⟨by simp [sorted_profiles], ?_, ?_⟩
        · intro q hq hfq
          refine ⟨f3, ?_⟩
          simp [sorted_profiles] at hq
          rcases hq with rfl | rfl | rfl | rfl
          · exact absurd hfq f1
          · exact absurd hfq f2
          · decide
          · decide
        · intro hnone
          exact absurd f3 (hnone hdProfile (by simp [sorted_profiles]))
      · by_cases f4 : profile_fits w h sdProfile
        · have e1 : choose_profile w h QualityTarget.auto = sdProfile := by
            rw [hchoose]
            unfold sorted_profiles
            rw [List.find?_cons_of_neg (p := fun q : QualityProfile => decide (q.height ≤ h) || decide (q.width ≤ w)) _ (hneg _ f1), List.find?_cons_of_neg (p := fun q : QualityProfile => decide (q.height ≤ h) || decide (q.width ≤ w)) _ (hneg _ f2),
              List.find?_cons_of_neg (p := fun q : QualityProfile => decide (q.height ≤ h) || decide (q.width ≤ w)) _ (hneg _ f3), List.find?_cons_of_pos (p := fun q : QualityProfile => decide (q.height ≤ h) || decide (q.width ≤ w)) _ (hpos _ f4)]
            rfl
          rw [e1]
          refine ⟨by simp [sorted_profiles], ?_, fun _ => rfl⟩
          intro q hq hfq
          refine ⟨f4, ?_⟩
          simp [sorted_profiles] at hq
          rcases hq with rfl | rfl | rfl | rfl
          · exact absurd hfq f1
          · exact absurd hfq f2
          · exact absurd hfq f3
          · decide
        · have e1 : choose_profile w h QualityTarget.auto = sdProfile := by
            rw [hchoose]
            unfold sorted_profiles
            rw [List.find?_cons_of_neg (p := fun q : QualityProfile => decide (q.height ≤ h) || decide (q.width ≤ w)) _ (hneg _ f1), List.find?_cons_of_neg (p := fun q : QualityProfile => decide (q.height ≤ h) || decide (q.width ≤ w)) _ (hneg _ f2),
              List.find?_cons_of_neg (p := fun q : QualityProfile => decide (q.height ≤ h) || decide (q.width ≤ w)) _ (hneg _ f3), List.find?_cons_of_neg (p := fun q : QualityProfile => decide (q.height ≤ h) || decide (q.width ≤ w)) _ (hneg _ f4)]
            rfl
          rw [e1]
          refine ⟨by simp [sorted_profiles], ?_, fun _ => rfl⟩
          intro q hq hfq
          simp [sorted_profiles] at hq
          rcases hq with rfl | rfl | rfl | rfl
          · exact absurd hfq f1
          · exact absurd hfq f2
          · exact absurd hfq f3
          · exact absurd hfq f4

/-- Witness for C5: for a 1920x1080 source the chosen profile fits and is at
least as tall as the fitting fhd_1080p profile. -/
theorem choose_profile_auto_highest_witness :
    profile_fits 1920 1080 (choose_profile 1920 1080 QualityTarget.auto) ∧
    fhdProfile.height ≤ (choose_profile 1920 1080 QualityTarget.auto).height :=
  (choose_profile_auto_highest 1920 1080).2.1 fhdProfile
    (by simp [sorted_profiles]) (Or.inl (by decide))

/-- C4: for a probed source with a video stream and truthy dimensions (the
pipeline reaches `_should_remux` only after `_select_profile` has verified
them) and a resolved target codec — `_resolve_codec` never returns `auto`,
as the second conjunct shows, so the defaulting branch inside
`_should_remux` is dead — the remux decision is true iff the mapped source
codec equals the target codec, the container is mp4-family, and the source
dimensions do not exceed the chosen profile's. -/
theorem should_remux_iff_conditions (info : MediaInfo) (profile : QualityProfile)
    (target : CodecPreference) (v : MediaStreamInfo) (w h : Nat)
    (hv : info.video = some v) (hw : v.width = some w) (hh : v.height = some h)
    (hw0 : 0 < w) (hh0 : 0 < h) (htarget : target ≠ CodecPreference.auto) :
    (should_remux info profile target = true ↔
      (map_codec_name v.codec_name = some target ∧
        is_mp4_container info.container = true ∧
        w ≤ profile.width ∧ h ≤ profile.height)) ∧
    ∀ (i2 : MediaInfo) (p2 : QualityProfile) (rc : CodecPreference),
      resolve_codec i2 p2 rc ≠ CodecPreference.auto := by
  constructor
  · simp only [should_remux, hv, hw, hh]
    rw [if_neg (by omega), if_neg htarget]
    by_cases h1 : map_codec_name v.codec_name = some target
    · rw [if_neg (by simp [h1])]
      by_cases h2 : is_mp4_container info.container = true
      · rw [if_neg (by simp [h2])]
        by_cases h3 : profile.width < w ∨ profile.height < h
        · rw [if_pos h3]
          simp only [Bool.false_eq_true, false_iff]
          intro hc
          omega
        · rw [if_neg h3]
          simp only [true_iff]
          exact ⟨h1, h2, by omega, by omega⟩
      · rw [if_pos (by simp [h2])]
        simp only [Bool.false_eq_true, false_iff]
        intro hc
        exact h2 hc.2.1
    · rw [if_pos (by simp [h1])]
      simp only [Bool.false_eq_true, false_iff]
      intro hc
      exact h1 hc.1
  · intro i2 p2 rc
    simp only [resolve_codec]
    split_ifs with hr1 hr2 hr3
    · exact hr1
    · rcases hr2 with hr2 | hr2 <;> simp [hr2]
    · exact hr3
    · simp

/-- Witness for C4: a 1280x720 h264 source in a "mov,mp4,m4a,3gp,3g2,mj2"
container remuxes under the hd_720p profile with target codec h264. -/
theorem should_remux_iff_conditions_witness :
    should_remux remuxInfoW hdProfile CodecPreference.h264 = true := by
  have h := should_remux_iff_conditions remuxInfoW hdProfile CodecPreference.h264
    { codec_type := "video", codec_name := some "h264", width := some 1280, height := some 720 }
    1280 720 rfl rfl rfl (by omega) (by omega) (by simp)
  exact h.1.mpr ⟨by decide, by decide, by decide, by decide⟩

theorem status_cancelled_step (st : ManagerState) (e : ManagerEvent) (id : String)
    (hc : statusOf st id = some JobStatus.cancelled)
    (hs : ∀ m req fn t, e ≠ ManagerEvent.submit m id req fn t) :
    statusOf (manager_step st e).1 id = some JobStatus.cancelled := by
  cases e with
  | submit m id2 req fn t =>
      have hne : id2 ≠ id := by
        intro hid
        exact hs m req fn t (by rw [hid])
      simp only [manager_step, submit_job]
      split
      · simpa [statusOf, lookup_setRecord_ne _ _ _ _ hne] using hc
      · simpa [statusOf, lookup_setRecord_ne _ _ _ _ hne] using hc
  | cancel id2 t =>
      simp only [manager_step, cancel_job]
      rcases hlk : lookupRecord st.records id2 with _ | r
      · simpa using hc
      · by_cases hid : id2 = id
        · subst hid
          have hrs : r.status = JobStatus.cancelled := by simpa [statusOf, hlk] using hc
          simp [hrs]
          exact hc
        · by_cases hterm : r.status = JobStatus.completed ∨ r.status = JobStatus.failed ∨
              r.status = JobStatus.cancelled
          · simp [hterm]
            exact hc
          · simp [hterm]
            simpa [statusOf, lookup_setRecord_ne _ _ _ _ hid] using hc
  | worker outcome t =>
      simp only [manager_step, worker_step]
      rcases hq : st.queue with _ | ⟨item, rest⟩
      · simpa using hc
      · by_cases hid : item.job_id = id
        · rcases hlk : lookupRecord st.records item.job_id with _ | r
          · rw [hid] at hlk
            simp [statusOf, hlk] at hc
          · have hrs : r.status = JobStatus.cancelled := by
              rw [hid] at hlk
              simpa [statusOf, hlk] using hc
            simp [hlk, hrs]
            exact hc
        · rcases hlk : lookupRecord st.records item.job_id with _ | r
          · simp [hlk]
            exact hc
          · by_cases hrs : r.status = JobStatus.cancelled
            · simp [hlk, hrs]
              exact hc
            · cases outcome with
              | success out =>
                  simp [hlk, hrs]
                  simpa [statusOf, lookup_setRecord_ne _ _ _ _ hid] using hc
              | failure msg =>
                  simp [hlk, hrs]
                  simpa [statusOf, lookup_setRecord_ne _ _ _ _ hid] using hc
  | progress id2 s d t =>
      simp only [manager_step]
      rcases hlk : lookupRecord st.records id2 with _ | r
      · simpa using hc
      · by_cases hid : id2 = id
        · subst hid
          have hrs : r.status = JobStatus.cancelled := by simpa [statusOf, hlk] using hc
          simp [statusOf, lookup_setRecord_self, update_progress_status, hrs]
        · simpa [statusOf, lookup_setRecord_ne _ _ _ _ hid] using hc

theorem status_cancelled_run (st : ManagerState) (es : List ManagerEvent) (id : String)
    (hc : statusOf st id = some JobStatus.cancelled)
    (hs : ∀ e ∈ es, ∀ m req fn t, e ≠ ManagerEvent.submit m id req fn t) :
    statusOf (run_events st es).1 id = some JobStatus.cancelled := by
  induction es generalizing st with
  | nil => simpa [run_events] using hc
  | cons e rest ih =>
      simp only [run_events]
      exact ih (manager_step st e).1
        (status_cancelled_step st e id hc (hs e (by simp)))
        (fun e2 he2 m req fn t => hs e2 (by simp [he2]) m req fn t)

/-- C7: cancelling a `queued` job succeeds, sets it to `cancelled`, and the
worker then never sets it to `processing`: under any subsequent interleaving
of manager events (with no submission reusing this id — submissions use
fresh uuid4 ids) the record's status remains `cancelled`, the dequeue-time
check skipping the job.  Cancelling an unknown id or a job already in a
terminal status (`completed`, `failed`, `cancelled`) returns false and
leaves the whole manager state — hence every field of the record —
unchanged. -/
theorem cancel_job_spec (st : ManagerState) (id : String) (now : ℚ) :
    (statusOf st id = some JobStatus.queued →
      (cancel_job st id now).1 = true ∧
      statusOf (cancel_job st id now).2 id = some JobStatus.cancelled ∧
      ∀ es : List ManagerEvent,
        (∀ e ∈ es, ∀ m req fn t, e ≠ ManagerEvent.submit m id req fn t) →
        statusOf (run_events (cancel_job st id now).2 es).1 id =
          some JobStatus.cancelled) ∧
    ((statusOf st id = none ∨ statusOf st id = some JobStatus.completed ∨
        statusOf st id = some JobStatus.failed ∨
        statusOf st id = some JobStatus.cancelled) →
      cancel_job st id now = (false, st)) := by
  constructor
  · intro hq
    rcases hlk : lookupRecord st.records id with _ | r
    · simp [statusOf, hlk] at hq
    · have hrs : r.status = JobStatus.queued := by simpa [statusOf, hlk] using hq
      have hnt : ¬ (r.status = JobStatus.completed ∨ r.status = JobStatus.failed ∨
          r.status = JobStatus.cancelled) := by
        simp [hrs]
      have htrue : (cancel_job st id now).1 = true := by
        simp [cancel_job, hlk, hnt]
      have hcs : statusOf (cancel_job st id now).2 id = some JobStatus.cancelled := by
        simp [cancel_job, hlk, hnt, statusOf, lookup_setRecord_self]
      exact ⟨htrue, hcs, fun es hfresh => status_cancelled_run _ es id hcs hfresh⟩
  · intro hterm
    rcases hlk : lookupRecord st.records id with _ | r
    · simp [cancel_job, hlk]
    · have hterm2 : r.status = JobStatus.completed ∨ r.status = JobStatus.failed ∨
          r.status = JobStatus.cancelled := by
        rcases hterm with h | h | h | h
        · simp [statusOf, hlk] at h
        · exact Or.inl (by simpa [statusOf, hlk] using h)
        · exact Or.inr (Or.inl (by simpa [statusOf, hlk] using h))
        · exact Or.inr (Or.inr (by simpa [statusOf, hlk] using h))
      simp [cancel_job, hlk, hterm2]

/-- Witness for C7: cancelling the queued job "q" succeeds and the job is
still `cancelled` (never `processing`) after the worker subsequently runs. -/
theorem cancel_job_spec_witness :
    (cancel_job queuedJobState "q" 3).1 = true ∧
    statusOf (run_events (cancel_job queuedJobState "q" 3).2
      [ManagerEvent.worker (TranscodeOutcome.success "o") 4]).1 "q" =
      some JobStatus.cancelled := by
  have h := (cancel_job_spec queuedJobState "q" 3).1 (by decide)
  refine ⟨h.1, h.2.2 [ManagerEvent.worker (TranscodeOutcome.success "o") 4] ?_⟩
  intro e he m req fn t
  simp only [List.mem_singleton] at he
  subst he
  simp

/-- C2 counterexample: a queued job with a callback URL is cancelled
(queued → cancelled, a terminal transition) and then dequeued: the worker
skips it, and across the whole run no callback dispatch is invoked — zero
attempt sequences for this terminal transition, not exactly one. -/
theorem cancelled_terminal_transition_no_callback :
    statusOf (run_events callbackJobState
      [ManagerEvent.cancel "j" 1,
        ManagerEvent.worker (TranscodeOutcome.success "out.mp4") 2]).1 "j" =
      some JobStatus.cancelled ∧
    (run_events callbackJobState
      [ManagerEvent.cancel "j" 1,
        ManagerEvent.worker (TranscodeOutcome.success "out.mp4") 2]).2 = [] := by
  decide

/-- C2 (amended): the worker's terminal transitions into `completed` or
`failed` trigger exactly one callback dispatch invocation when a callback
URL is present (none without one), while the queued → cancelled transition
triggers none: `cancel_job` dispatches nothing, the worker's dequeue-time
skip of a cancelled record dispatches nothing, and submissions and progress
updates dispatch nothing. -/
theorem worker_terminal_exactly_one_callback (st : ManagerState)
    (outcome : TranscodeOutcome) (now t2 : ℚ) (item : WorkItem) (rest : List WorkItem)
    (r : JobRecord) (id2 : String)
    (hq : st.queue = item :: rest)
    (hr : lookupRecord st.records item.job_id = some r) :
    (r.status ≠ JobStatus.cancelled →
      (statusOf (worker_step st outcome now).1 item.job_id = some JobStatus.completed ∨
        statusOf (worker_step st outcome now).1 item.job_id = some JobStatus.failed) ∧
      (worker_step st outcome now).2.length =
        (if r.callback_url = none then 0 else 1)) ∧
    (r.status = JobStatus.cancelled →
      (worker_step st outcome now).2 = [] ∧
      statusOf (worker_step st outcome now).1 item.job_id = some JobStatus.cancelled) ∧
    ((manager_step st (ManagerEvent.cancel id2 t2)).2 = [] ∧
      ∀ m id3 req fn t3,
        (manager_step st (ManagerEvent.submit m id3 req fn t3)).2 = []) ∧
    (∀ id3 s d t3, (manager_step st (ManagerEvent.progress id3 s d t3)).2 = []) := by
  refine ⟨?_, ?_, ⟨rfl, fun m id3 req fn t3 => rfl⟩, ?_⟩
  · intro hnc
    cases outcome with
    | success out =>
        constructor
        · left
          simp [worker_step, hq, hr, hnc, statusOf, lookup_setRecord_self]
        · simp only [worker_step, hq, hr]
          simp [hnc, fire_callback]
          cases hcb : r.callback_url <;> simp [hcb]
    | failure msg =>
        by_cases hf : r.transcode_finished_at = none
        · constructor
          · right
            simp [worker_step, hq, hr, hnc, hf, statusOf, lookup_setRecord_self]
          · simp only [worker_step, hq, hr]
            simp [hnc, hf, fire_callback]
            cases hcb : r.callback_url <;> simp [hcb]
        · constructor
          · right
            simp [worker_step, hq, hr, hnc, hf, statusOf, lookup_setRecord_self]
          · simp only [worker_step, hq, hr]
            simp [hnc, hf, fire_callback]
            cases hcb : r.callback_url <;> simp [hcb]
  · intro hc
    simp [worker_step, hq, hr, hc, statusOf]
  · intro id3 s d t3
    rcases hlk : lookupRecord st.records id3 with _ | r3 <;> simp [manager_step, hlk]

/-- Witness for C2's amended statement: the worker completing the queued
job "j" (which has a callback URL) dispatches exactly one callback. -/
theorem worker_terminal_exactly_one_callback_witness :
    (statusOf (worker_step callbackJobState (TranscodeOutcome.success "o") 7).1 "j" =
        some JobStatus.completed ∨
      statusOf (worker_step callbackJobState (TranscodeOutcome.success "o") 7).1 "j" =
        some JobStatus.failed) ∧
    (worker_step callbackJobState (TranscodeOutcome.success "o") 7).2.length = 1 := by
  have h := (worker_terminal_exactly_one_callback callbackJobState
      (TranscodeOutcome.success "o") 7 0 callbackWorkItem [] callbackJobRecord "x"
      rfl rfl).1 (by decide)
  exact ⟨h.1, by simpa [callbackJobRecord] using h.2⟩

end MediaEngine
